import Mathlib

/-!
Shallow embedding of the `twikutil` repository (packages `twikutil` and `key`):
the Function Adapter (twik.go), the binding environment (executer.go, as far as
the Key package uses it), and the Typed Key Registry (the `key` package).

Go values are modelled by the inductive `GoVal` (with `VNil` for the nil
interface value), runtime types by `GoType` (with `typeOf : GoVal → Option
GoType`; `none` is the nil `reflect.Type`).  Go panics are modelled by
`Option`-valued results (`none` = panic).  Errors are values: a `GoVal`
constructor per error struct of the source, and dedicated constructors for the
sentinel errors created once with `errors.New` (pointer identity in Go).
-/

namespace Twikutil

/-- Runtime type tags, mirroring the `reflect.Type` values the source touches.
`TIface` is `interface {}` (the empty interface), `TError` the `error`
interface, `TSlice t` is `[]t`, and `TNamed s` any other named type with
display string `s` (used for the dynamic types of error values). -/
inductive GoType where
  | TInt | TInt16 | TInt32 | TInt64
  | TUint8
  | TFloat32 | TFloat64
  | TString | TBool
  | TError
  | TIface
  | TSlice (t : GoType)
  | TNamed (s : String)
  deriving DecidableEq

/-- A function's reflect-visible signature: `NumIn`/`In`, `IsVariadic`,
`NumOut`/`Out`.  (For a variadic function the last entry of `inTypes` is the
slice type of the variadic parameter, as in Go's reflect.) -/
structure FnSig where
  inTypes : List GoType
  variadic : Bool
  outTypes : List GoType

/-- Go interface values.  Error values carry the fields of the corresponding
source structs: `VErrType` is `twikutil.TypeError{Name, Fn, Got, Want}`,
`VErrKeyType` is `key.TypeError{Name, Got, Wants}` (its `Got` is a possibly-nil
`reflect.Type`), `VErrImplements` is `key.ImplementsError`, `VErrRequired` is
`key.RequiredError`.  `VErrCatch`, `VErrKeyExists`, `VErrMissingValue` and
`VErrNotTyper` are the `errors.New` sentinels of the key package (one
constructor each, since Go compares them by identity), and `VErrSimple` covers
errors freshly created from a message (`fmt.Errorf` / `errors.New` at the use
site). -/
inductive GoVal where
  | VNil
  | VInt (n : Int) | VInt16 (n : Int) | VInt32 (n : Int) | VInt64 (n : Int)
  | VFloat32 (x : Int) | VFloat64 (x : Int)
  | VString (s : String) | VBool (b : Bool)
  | VErrSimple (msg : String)
  | VErrType (name : String) (fn : Option FnSig) (got : GoVal) (want : List String)
  | VErrKeyType (name : String) (got : Option GoType) (wants : String)
  | VErrImplements (name : String) (got : Option GoType) (wants : String)
  | VErrRequired (name : String)
  | VErrCatch | VErrKeyExists | VErrMissingValue | VErrNotTyper

open GoType GoVal

/-- Bool form of Go's nil check `v == nil`. -/
def isNilV : GoVal → Bool
  | VNil => true
  | _ => false

instance (v : GoVal) : Decidable (v = VNil) :=
  decidable_of_iff (isNilV v = true) (by cases v <;> simp [isNilV])

/-- Bool form of the identity comparison `err == ErrCatch` (Go compares the
sentinel by pointer identity). -/
def isCatchErr : Option GoVal → Bool
  | some VErrCatch => true
  | _ => false

instance (e : Option GoVal) : Decidable (e = some VErrCatch) :=
  decidable_of_iff (isCatchErr e = true) (by
    cases e with
    | none => simp [isCatchErr]
    | some v => cases v <;> simp [isCatchErr])

/-- `reflect.TypeOf` on an interface value; `none` is the nil `reflect.Type`
(obtained exactly for the nil interface value). -/
def typeOf : GoVal → Option GoType
  | VNil => none
  | VInt _ => some TInt
  | VInt16 _ => some TInt16
  | VInt32 _ => some TInt32
  | VInt64 _ => some TInt64
  | VFloat32 _ => some TFloat32
  | VFloat64 _ => some TFloat64
  | VString _ => some TString
  | VBool _ => some TBool
  | VErrSimple _ => some (TNamed "*errors.errorString")
  | VErrType _ _ _ _ => some (TNamed "*twikutil.TypeError")
  | VErrKeyType _ _ _ => some (TNamed "*key.TypeError")
  | VErrImplements _ _ _ => some (TNamed "*key.ImplementsError")
  | VErrRequired _ => some (TNamed "key.RequiredError")
  | VErrCatch => some (TNamed "*errors.errorString")
  | VErrKeyExists => some (TNamed "*errors.errorString")
  | VErrMissingValue => some (TNamed "*errors.errorString")
  | VErrNotTyper => some (TNamed "*errors.errorString")

/-- Does the dynamic value implement the `error` interface?  (This is the
`.(error)` type assertion of the source.) -/
def isErrVal : GoVal → Bool
  | VErrSimple _ | VErrType _ _ _ _ | VErrKeyType _ _ _ | VErrImplements _ _ _
  | VErrRequired _ | VErrCatch | VErrKeyExists | VErrMissingValue
  | VErrNotTyper => true
  | _ => false

/-- `t.Kind() == reflect.Interface`: the interface types of the model. -/
def GoType.isIfaceKind : GoType → Bool
  | TIface | TError => true
  | _ => false

/-- Does a concrete dynamic type implement the `error` interface? -/
def implementsError : GoType → Bool
  | TNamed "*errors.errorString" => true
  | TNamed "*twikutil.TypeError" => true
  | TNamed "*key.TypeError" => true
  | TNamed "*key.ImplementsError" => true
  | TNamed "key.RequiredError" => true
  | TError => true
  | _ => false

/-- `it.Implements(ft)` for the interface types of the model: everything
implements the empty interface; the `error` interface is implemented exactly by
the error types. -/
def implements (it : GoType) (ft : GoType) : Bool :=
  match ft with
  | TIface => true
  | TError => implementsError it
  | _ => false

/-- `reflect.Type.String()`. -/
def GoType.str : GoType → String
  | TInt => "int"
  | TInt16 => "int16"
  | TInt32 => "int32"
  | TInt64 => "int64"
  | TUint8 => "uint8"
  | TFloat32 => "float32"
  | TFloat64 => "float64"
  | TString => "string"
  | TBool => "bool"
  | TError => "error"
  | TIface => "interface \x7b\x7d"
  | TSlice t => "[]" ++ t.str
  | TNamed s => s

/-- `typeName` (twik.go): `t.String()` with the three canonical rewrites. -/
def typeName (t : GoType) : String :=
  let n := t.str
  if n = "interface \x7b\x7d" then "\x7b\x7d"
  else if n = "[]interface \x7b\x7d" then "[]\x7b\x7d"
  else if n = "[]uint8" then "[]byte"
  else n

/-- `strings.Replace(n, "[]", "", 1)` on the character list of a type's
display string. -/
def stripBrackets : List Char → List Char
  | [] => []
  | '[' :: ']' :: rest => rest
  | c :: rest => c :: stripBrackets rest

/-- `variadicName` (twik.go). -/
def variadicName (t : GoType) : String :=
  let n := String.mk (stripBrackets t.str.toList)
  let n := if n = "interface \x7b\x7d" then "\x7b\x7d"
    else if n = "[]uint8" then "[]byte"
    else n
  "..." ++ n

/-- The reflect type of the value handed to `Format`: either a non-function
value's type, or a function's signature. -/
inductive RType where
  | plain (t : GoType)
  | func (sig : FnSig)

/-- The parameter part of `Format`'s loop: `typeName ++ " -> "` for every
parameter before the last, and for the last parameter `variadicName`
(variadic) or `typeName`, followed by `" => "`.  Empty for zero parameters. -/
def formatIns (variadic : Bool) : List GoType → String
  | [] => ""
  | [t] => (if variadic then variadicName t else typeName t) ++ " => "
  | t :: ts => typeName t ++ " -> " ++ formatIns variadic ts

/-- `t.Out(i).Name() == "error"`. -/
def isErrorType (t : GoType) : Bool := t = TError

/-- The `invalidRetval` closure of `Format`: all return types joined by
`" -> "`. -/
def invalidRetval : List GoType → String
  | [] => ""
  | [t] => typeName t
  | t :: ts => typeName t ++ " -> " ++ invalidRetval ts

/-- The return part of `Format`. -/
def formatOuts (outs : List GoType) : String :=
  match outs with
  | [] => "()"
  | [t0] => if isErrorType t0 then "()" else typeName t0
  | [t0, t1] =>
    if isErrorType t0 then invalidRetval [t0, t1]
    else if ¬ isErrorType t1 then invalidRetval [t0, t1]
    else typeName t0
  | ts => invalidRetval ts

/-- `Format` (twik.go): `"name : Type"` for non-function values, and
`"name :: P1 -> ... -> Pn => Ret"` for functions. -/
def Format (name : String) (t : RType) : String :=
  match t with
  | .plain ty => name ++ " : " ++ typeName ty
  | .func sig => name ++ " :: " ++ formatIns sig.variadic sig.inTypes ++ formatOuts sig.outTypes

/-- `newParamError` (twik.go). -/
def newParamError (name : String) (sig : FnSig) : GoVal :=
  VErrSimple ("Incorrect number of parameters to function " ++ name ++ ".\n\n\t"
    ++ Format name (.func sig) ++ ".")

/-- A host function: its reflect signature plus its behaviour (the list of
return values produced by `reflect.Value.Call`; for a variadic function the
implementation receives the whole argument list, reflect having spread the
variadic arguments). -/
structure HostFn where
  sig : FnSig
  impl : List GoVal → List GoVal

/-- `funcReturn` (twik.go): from the function's declared return types, build
the handler applied to the values of `vf.Call`.  Returns `none` where the
source panics at wrap time (more than two return values, or two return values
whose second is not `error`).  The result pair is Go's `(interface{}, error)`;
`VNil` stands for both nils. -/
def funcReturn (name : String) (sig : FnSig) : Option (List GoVal → GoVal × GoVal) :=
  match sig.outTypes with
  | [] => some (fun _ => (VNil, VNil))
  | [t0] =>
    if ¬ isErrorType t0 then
      some (fun vo => (vo.getD 0 VNil, VNil))
    else
      some (fun vo =>
        let v0 := vo.getD 0 VNil
        if isErrVal v0 then
          match v0 with
          | VErrType _ _ got want => (VNil, VErrType name (some sig) got want)
          | e => (VNil, e)
        else (VNil, VNil))
  | [_, t1] =>
    if ¬ isErrorType t1 then none
    else
      some (fun vo =>
        let v := vo.getD 0 VNil
        if isErrVal v then
          match v with
          | VErrType _ _ got want => (VNil, VErrType name (some sig) got want)
          | e => (v, e)
        else (v, VNil))
  | _ :: _ :: _ :: _ => none

/-- `funcAccepts` (twik.go).  `it` is the dynamic type of the argument
(`none` when the argument is nil); calling `Implements` on a nil type panics
in Go, hence the `Option Bool` result (`none` = panic). -/
def funcAccepts (ft : GoType) (it : Option GoType) : Option Bool :=
  if ft.isIfaceKind then
    match it with
    | none => none
    | some t => some (implements t ft)
  else
    some (match it with
      | none => false
      | some t => ft = t)

/-- Outcome of the argument-checking phase of an `invoke`, before the host
function is called: either an error is returned to the caller (the host is
never invoked), or the adapter proceeds to `vf.Call` with these values. -/
inductive CallStep where
  | errored (e : GoVal)
  | called (vi : List GoVal)

/-- The leading-parameter check loop shared by `funcStandard` and
`funcVariadic`: each argument against the corresponding `t.In(i)`, the first
failure producing `&TypeError{name, f, args[i], []string{typeName(t.In(i))}}`.
`none` = panic (nil argument against an interface parameter). -/
def checkParams (name : String) (sig : FnSig) : List GoType → List GoVal → Option (Option GoVal)
  | [], _ => some none
  | _, [] => some none
  | t :: ts, a :: rest =>
    match funcAccepts t (typeOf a) with
    | none => none
    | some false => some (some (VErrType name (some sig) a [typeName t]))
    | some true => checkParams name sig ts rest

/-- `t.In(i)`: `none` when the index is out of range (where Go's reflect
panics). -/
def inTy (sig : FnSig) (i : Nat) : Option GoType := sig.inTypes.get? i

/-- The variadic check loop of `funcVariadic` (`for i := last; i < n; i++`):
argument `i` against the variadic element type; on a mismatch the error's
expected-type string is built from `t.In(i)` — which is out of range (a
reflect panic, modelled as `none`) whenever `i > last`. -/
def varCheck (name : String) (sig : FnSig) (elemT : GoType) :
    Nat → List GoVal → Option (Option GoVal)
  | _, [] => some none
  | i, a :: rest =>
    match funcAccepts elemT (typeOf a) with
    | none => none
    | some false =>
      match inTy sig i with
      | none => none
      | some ti => some (some (VErrType name (some sig) a [typeName ti]))
    | some true => varCheck name sig elemT (i + 1) rest

/-- The dispatch phase of `funcStandard` (twik.go): count check, then
per-argument check, then the call.  `none` = panic. -/
def funcStandardStep (name : String) (sig : FnSig) (args : List GoVal) : Option CallStep :=
  if args.length ≠ sig.inTypes.length then
    some (.errored (newParamError name sig))
  else
    match checkParams name sig sig.inTypes args with
    | none => none
    | some (some e) => some (.errored e)
    | some none => some (.called args)

/-- The dispatch phase of `funcVariadic` (twik.go): `n < last` count check,
leading checks against `t.In(i)` for `i < last`, then every argument from
position `last` on against `t.In(last).Elem()`.  `none` = panic. -/
def funcVariadicStep (name : String) (sig : FnSig) (args : List GoVal) : Option CallStep :=
  let last := sig.inTypes.length - 1
  if args.length < last then
    some (.errored (newParamError name sig))
  else
    match checkParams name sig (sig.inTypes.take last) (args.take last) with
    | none => none
    | some (some e) => some (.errored e)
    | some none =>
      match inTy sig last with
      | some (TSlice elemT) =>
        match varCheck name sig elemT last (args.drop last) with
        | none => none
        | some (some e) => some (.errored e)
        | some none => some (.called args)
      | _ => none

/-- `funcStandard` (twik.go): the composed invoke.  `none` = panic (at wrap
time or during the checks). -/
def funcStandard (name : String) (f : HostFn) (args : List GoVal) :
    Option (GoVal × GoVal) :=
  match funcReturn name f.sig with
  | none => none
  | some ret =>
    match funcStandardStep name f.sig args with
    | none => none
    | some (.errored e) => some (VNil, e)
    | some (.called vi) => some (ret (f.impl vi))

/-- `funcVariadic` (twik.go): the composed invoke.  `none` = panic. -/
def funcVariadic (name : String) (f : HostFn) (args : List GoVal) :
    Option (GoVal × GoVal) :=
  match funcReturn name f.sig with
  | none => none
  | some ret =>
    match funcVariadicStep name f.sig args with
    | none => none
    | some (.errored e) => some (VNil, e)
    | some (.called vi) => some (ret (f.impl vi))

/-- `Func` (twik.go).  `f` is a function value by construction of `HostFn`
(the source panics on non-functions before this dispatch). -/
def Func (name : String) (f : HostFn) (args : List GoVal) : Option (GoVal × GoVal) :=
  if f.sig.variadic then funcVariadic name f args else funcStandard name f args

/-! ### The binding environment (executer.go)

The twik `Scope` is an external collaborator; the spec describes it as a
mutable namespace with create/get/set.  It is modelled as a map from names to
values, where a binding may hold the nil value (`some VNil`) and `none` means
the name is unbound (`scope.Get` returns an error there).  The `Executer`
carries that scope plus the set of names registered as functions. -/

def Scope : Type := String → Option GoVal

/-- `scope.Get`: the bound value, or `none` (an "undefined symbol" error in
twik) when the name is unbound. -/
def Scope.get (s : Scope) (n : String) : Option GoVal := s n

/-- `scope.Set`: replace the value of a binding. -/
def Scope.set (s : Scope) (n : String) (v : GoVal) : Scope :=
  fun m => if m = n then some v else s m

/-- `scope.Create`: create a binding; fails if the name is already bound. -/
def Scope.create (s : Scope) (n : String) (v : GoVal) : Scope × Option GoVal :=
  if (s n).isSome then (s, some (VErrSimple "twik: symbol already defined in scope"))
  else (Scope.set s n v, none)

structure Executer where
  scope : Scope
  funcs : String → Bool

/-- `Executer.Set` (executer.go): refuses function names; sets the binding if
the scope lookup succeeds, otherwise creates it. -/
def Executer.Set (e : Executer) (n : String) (v : GoVal) : Executer × Option GoVal :=
  if e.funcs n then
    (e, some (VErrSimple "function with that name already exists"))
  else
    match e.scope.get n with
    | some _ => ({ e with scope := e.scope.set n v }, none)
    | none =>
      let (s, err) := e.scope.create n v
      ({ e with scope := s }, err)

/-- `Executer.Get` (executer.go).  Returns Go's `(interface{}, error)`. -/
def Executer.Get (e : Executer) (n : String) : GoVal × Option GoVal :=
  if e.funcs n then (VNil, some (VErrSimple "functions cannot be gotten"))
  else
    match e.scope.get n with
    | some v => (v, none)
    | none => (VNil, some (VErrSimple "twik: undefined symbol"))

/-- `Executer.Has` (executer.go): `err == nil && v != nil`, and always false
for registered function names. -/
def Executer.Has (e : Executer) (n : String) : Bool :=
  if e.funcs n then false
  else
    match e.scope.get n with
    | some v => v ≠ VNil
    | none => false

end Twikutil

namespace key

open Twikutil Twikutil.GoType Twikutil.GoVal

/-! ### The `key` package: type descriptors and the Coercion Engine -/

/-- The `typer interface{}` field of a Key: a `reflect.Type`, one of the
`Typer` coercion rules the package defines (`Float`, `Integer`), or any other
value (`IsTyper` rejects it; `Check` answers `ErrNotTyper`). -/
inductive TyperArg where
  | rtype (t : GoType)
  | floatT
  | integerT
  | invalid

/-- `IsTyper` (the `typer.go` part of the key package). -/
def IsTyper : TyperArg → Bool
  | .invalid => false
  | _ => true

/-- The display string of a coercion rule (`typer.String()`). -/
def typerStr : TyperArg → String
  | .floatT => "float"
  | .integerT => "integer"
  | _ => ""

/-- The raw `fn` of the built-in `TyperFunc` rules.  `Float` coerces float32
to float64; `Integer` coerces int16/int32/int64 to int; both answer
`(nil, ErrCatch)` on everything else. -/
def coerceFn : TyperArg → GoVal → GoVal × Option GoVal
  | .floatT, VFloat64 x => (VFloat64 x, none)
  | .floatT, VFloat32 x => (VFloat64 x, none)
  | .floatT, _ => (VNil, some VErrCatch)
  | .integerT, VInt n => (VInt n, none)
  | .integerT, VInt64 n => (VInt n, none)
  | .integerT, VInt32 n => (VInt n, none)
  | .integerT, VInt16 n => (VInt n, none)
  | .integerT, _ => (VNil, some VErrCatch)
  | _, v => (v, none)

/-- The `got` argument of `NewTypeError`: a `reflect.Type` (possibly the nil
interface, as `reflect.TypeOf(v)` is for nil `v`) or any other value.  These
are the two shapes the source passes. -/
inductive GotArg where
  | typ (t : Option GoType)
  | val (v : GoVal)

/-- The `wants` argument of `NewTypeError`: a `reflect.Type` or a string (the
two shapes the source passes). -/
inductive WantsArg where
  | typ (t : GoType)
  | str (s : String)

/-- `NewTypeError` (the key package): `Got` is the argument itself when it is
a (non-nil) `reflect.Type`, otherwise `reflect.TypeOf` of the argument (so the
nil interface yields a nil `Got`); `Wants` is the type's `String()` or the
string as given. -/
def NewTypeError (name : String) (got : GotArg) (wants : WantsArg) : GoVal :=
  let g : Option GoType :=
    match got with
    | .typ (some t) => some t
    | .typ none => none
    | .val v => typeOf v
  let w : String :=
    match wants with
    | .typ t => t.str
    | .str s => s
  VErrKeyType name g w

/-- `typer.Coerce` (the key package): run the rule's `fn`; on the `ErrCatch`
sentinel wrap into a `TypeError` with an empty name — note the source shadows
`v` with `fn`'s result, so `reflect.TypeOf(v)` is taken of that result (nil on
rejection), not of the original input. -/
def Coerce (t : TyperArg) (v : GoVal) : GoVal × Option GoVal :=
  let (v, err) := coerceFn t v
  if err = some VErrCatch then
    (v, some (NewTypeError "" (.typ (typeOf v)) (.str (typerStr t))))
  else (v, err)

/-- `Check` (the key package): exact/interface match for a `reflect.Type`
descriptor, `Coerce` (with the empty error name filled in) for a `Typer`
descriptor, `ErrNotTyper` otherwise. -/
def Check (name : String) (typer : TyperArg) (v : GoVal) : GoVal × Option GoVal :=
  match typer with
  | .rtype t =>
    let vt := typeOf v
    if t.isIfaceKind then
      if (match vt with | some it => implements it t | none => false) = false then
        (v, some (VErrImplements name vt t.str))
      else (v, none)
    else if vt ≠ some t then (v, some (NewTypeError name (.typ vt) (.typ t)))
    else (v, none)
  | .invalid => (VNil, some VErrNotTyper)
  | tt =>
    let (v, err) := Coerce tt v
    match err with
    | some (VErrKeyType n g w) =>
      if n = "" then (v, some (VErrKeyType name g w)) else (v, some (VErrKeyType n g w))
    | some (VErrImplements n g w) =>
      if n = "" then (v, some (VErrImplements name g w)) else (v, some (VErrImplements n g w))
    | other => (v, other)

/-! ### The `key` package: Keys -/

/-- Mode is a bitset (`Reserved = 0`, `Read = 1`, `Write = 2`,
`Required = 4`). -/
abbrev Mode := Nat

def Read : Mode := 1
def Write : Mode := 2
def Required : Mode := 4

structure Key where
  name : String
  desc : String
  mode : Mode
  typer : TyperArg
  val : GoVal

/-- `Key.Get`: the stored value (`VNil` = absent); never fails. -/
def Key.Get (k : Key) : GoVal := k.val

/-- `Key.SetMode`. -/
def Key.SetMode (k : Key) (m : Mode) : Key := { k with mode := m }

/-- `Key.Set` (the key package): nil deletes the stored value without
validation; everything else must pass `Check`, whose result (the possibly
coerced value) is stored; on error the key is unchanged. -/
def Key.Set (k : Key) (v : GoVal) : Key × Option GoVal :=
  if v = VNil then ({ k with val := v }, none)
  else
    match Check k.name k.typer v with
    | (v', none) => ({ k with val := v' }, none)
    | (_, some e) => (k, some e)

/-- `New` (the key package): reject non-typers, then build the key with a nil
value and run `Set` on the default — the source returns the key alongside
`Set`'s error. -/
def New (name : String) (typer : TyperArg) (defv : GoVal) (m : Mode) (desc : String) :
    Option Key × Option GoVal :=
  if ¬ IsTyper typer then (none, some VErrNotTyper)
  else
    let k : Key := ⟨name, desc, m, typer, VNil⟩
    let (k, err) := k.Set defv
    (some k, err)

/-- `NewAuto` (the key package): requires a non-nil default and infers the
descriptor as the default's runtime type. -/
def NewAuto (name : String) (defv : GoVal) (m : Mode) (desc : String) :
    Option Key × Option GoVal :=
  if defv = VNil then (none, some VErrMissingValue)
  else
    match typeOf defv with
    | some t => (some ⟨name, desc, m, .rtype t, defv⟩, none)
    | none => (none, some VErrMissingValue)

/-- `Key.Acquire` (the key package): no-op without `Read` mode; on an absent
name, `RequiredError` when `Required` is set and a silent success otherwise;
else pull the environment's value through `Set`.  (The method only ever reads
the environment, so it is returned unchanged by the type of the model.) -/
def Key.Acquire (k : Key) (e : Executer) : Key × Option GoVal :=
  if k.mode &&& Read = 0 then (k, none)
  else if ¬ e.Has k.name then
    if k.mode &&& Required ≠ 0 then (k, some (VErrRequired k.name))
    else (k, none)
  else
    let (v, _) := e.Get k.name
    k.Set v

/-- `Key.Apply` (the key package): no-op without `Write` mode; writes the
key's value only when the environment does not already have the name. -/
def Key.Apply (k : Key) (e : Executer) : Executer × Option GoVal :=
  if k.mode &&& Write = 0 then (e, none)
  else if ¬ e.Has k.name then e.Set k.name k.val
  else (e, none)

/-- `Key.ApplyOrNil` (the key package): like `Apply`, but a key without
`Write` mode explicitly binds its name to nil. -/
def Key.ApplyOrNil (k : Key) (e : Executer) : Executer × Option GoVal :=
  if k.mode &&& Write = 0 then e.Set k.name VNil
  else if ¬ e.Has k.name then e.Set k.name k.val
  else (e, none)

/-- `Key.Clobber` (the key package): no-op without `Write` mode; otherwise
always writes the key's value over the environment binding. -/
def Key.Clobber (k : Key) (e : Executer) : Executer × Option GoVal :=
  if k.mode &&& Write = 0 then (e, none)
  else e.Set k.name k.val

end key

/-! ### Concrete fixtures used by individual claims -/

open Twikutil Twikutil.GoType Twikutil.GoVal key

/-- A host function `func() (int, error)` whose call yields `(42, boom)`:
two return values, the second of error kind and non-nil. -/
def c1fn : HostFn := ⟨⟨[], false, [TInt, TError]⟩, fun _ => [VInt 42, VErrSimple "boom"]⟩

/-- A variadic host function `func(string, ...int)`. -/
def c3fn : HostFn := ⟨⟨[TString, TSlice TInt], true, []⟩, fun _ => []⟩

/-- A fixed-arity host function `func(int) int`. -/
def c8fn : HostFn := ⟨⟨[TInt], false, [TInt]⟩, fun a => a⟩

/-- A key with the built-in `Integer` coercion descriptor, default 3, mode
`ReadWrite`. -/
def k6 : Key := ⟨"n", "", 3, .integerT, VInt 3⟩

/-- A `Write`-mode key named `n` holding 7. -/
def k10 : Key := ⟨"n", "", 2, .rtype TInt, VInt 7⟩

/-- An environment whose scope binds `n` to nil and registers no functions. -/
def e10 : Executer := ⟨fun m => if m = "n" then some VNil else none, fun _ => false⟩

/-! ### Helper lemmas -/

/-- `Executer.Has` holds exactly for non-function names bound to a non-nil
value. -/
theorem executerHas_iff (e : Executer) (n : String) :
    e.Has n = true ↔ e.funcs n = false ∧ ∃ v, e.scope.get n = some v ∧ v ≠ VNil := by
  unfold Executer.Has
  cases hf : e.funcs n
  · cases hg : e.scope.get n <;> simp_all
  · simp

/-- The exact/interface branch of `Check` passes the value through
unchanged. -/
theorem checkRtype_fst (n : String) (t : GoType) (v : GoVal) :
    (Check n (.rtype t) v).1 = v := by
  simp only [Check]
  split_ifs <;> rfl

/-- Dynamic types obtained from `typeOf` are never of interface kind. -/
theorem typeOf_not_ifaceKind (v : GoVal) (t : GoType) (h : typeOf v = some t) :
    t.isIfaceKind = false := by
  cases v
  case VNil => simp [typeOf] at h
  all_goals (simp only [typeOf, Option.some.injEq] at h; subst h; rfl)

/-- Closed form of `Check` for the `Float` rule. -/
theorem check_float_eq (n : String) (v : GoVal) :
    Check n .floatT v
      = match v with
        | VFloat64 x => (VFloat64 x, none)
        | VFloat32 x => (VFloat64 x, none)
        | _ => (VNil, some (VErrKeyType n none "float")) := by
  cases v <;> rfl

/-- Closed form of `Check` for the `Integer` rule. -/
theorem check_integer_eq (n : String) (v : GoVal) :
    Check n .integerT v
      = match v with
        | VInt x => (VInt x, none)
        | VInt64 x => (VInt x, none)
        | VInt32 x => (VInt x, none)
        | VInt16 x => (VInt x, none)
        | _ => (VNil, some (VErrKeyType n none "integer")) := by
  cases v <;> rfl

/-- `Check` is idempotent over the program's descriptors: a value it accepts
is accepted again, unchanged. -/
theorem check_idem (n : String) (t : TyperArg) (v w : GoVal)
    (h : Check n t v = (w, none)) : Check n t w = (w, none) := by
  cases t with
  | rtype ty =>
    have h1 := checkRtype_fst n ty v
    rw [h] at h1
    subst h1
    exact h
  | floatT =>
    rw [check_float_eq] at h
    cases v <;> simp at h <;> (try subst h) <;> rfl
  | integerT =>
    rw [check_integer_eq] at h
    cases v <;> simp at h <;> (try subst h) <;> rfl
  | invalid => simp [Check] at h

/-- The stored-value invariant of a `Key`: absent, or accepted unchanged by
its own descriptor. -/
def KeyInv (k : Key) : Prop :=
  k.val = VNil ∨ Check k.name k.typer k.val = (k.val, none)

/-! ### Claims -/

/-- C1: the claim says that for a wrapped host function with exactly two
return values (the second of error kind), a call whose second return value is
a non-nil error surfaces that error.  The code checks `vo[0]` — the first
return value — for error-ness instead of `vo[1]`, so the second return's
error is silently discarded: invoking the wrapped `func() (int, error)`
returning `(42, boom)` yields `(42, nil)` although the call produced the
non-nil error `boom` in second position. -/
theorem c1_invoke_discards_second_error :
    Func "f" c1fn [] = some (VInt 42, VNil)
    ∧ (c1fn.impl []).getD 1 VNil = VErrSimple "boom"
    ∧ isErrVal ((c1fn.impl []).getD 1 VNil) = true :=
  ⟨rfl, rfl, rfl⟩

/-- C2: the claim says a value rejected by a coercion descriptor produces a
TypeMismatch recording the rule's display name as expected and the value's
actual runtime type as encountered.  The expected name (`"integer"`) and the
hiding of the `ErrCatch` sentinel are as claimed, but `typer.Coerce` shadows
`v` with the coercion function's result — nil on rejection — so the recorded
`Got` type is the nil type, not the value's actual type `string`. -/
theorem c2_coercion_mismatch_records_nil_type :
    Check "x" .integerT (VString "s") = (VNil, some (VErrKeyType "x" none "integer"))
    ∧ typeOf (VString "s") = some TString :=
  ⟨rfl, rfl⟩

/-- C3: the claim says every argument at or beyond the variadic position is
checked against the element type and the first mismatch returns (without
panicking) a ParamTypeMismatch.  The mismatch branch of the variadic loop
builds the expected-type string from `t.In(i)`, which is out of range for any
mismatch strictly beyond the variadic position, so the reflect call panics
there (modelled as `none`); with exactly the required leading arguments and
zero trailing arguments the call does go through to the host. -/
theorem c3_variadic_mismatch_panics :
    Func "f" c3fn [VString "a", VInt 1, VString "x"] = none
    ∧ Func "f" c3fn [VString "a"] = some (VNil, VNil) :=
  ⟨rfl, rfl⟩

/-- C4: with `Read|Required` mode and the name absent from the environment
(the environment reports it absent), `Acquire` fails with `RequiredError`;
with `Read` but not `Required` it succeeds and leaves the key unchanged; and
without `Read` mode it returns at once, touching neither the key nor the
environment (`Acquire` only ever reads the environment, which the model's
type makes explicit). -/
theorem c4_acquire_mode_gating (k : Key) (e : Executer) :
    (k.mode &&& Read ≠ 0 → e.Has k.name = false →
      ((k.mode &&& Required ≠ 0 → k.Acquire e = (k, some (VErrRequired k.name)))
        ∧ (k.mode &&& Required = 0 → k.Acquire e = (k, none))))
    ∧ (k.mode &&& Read = 0 → k.Acquire e = (k, none)) := by
  constructor
  · intro hr hb
    constructor
    · intro hq
      simp [Key.Acquire, hr, hb, hq]
    · intro hq
      simp [Key.Acquire, hr, hb, hq]
  · intro hr
    simp [Key.Acquire, hr]

/-- C4 witness: a `Read|Required` key over an empty environment. -/
theorem c4_witness :
    (⟨"n", "", 5, .rtype TInt, VNil⟩ : Key).Acquire ⟨fun _ => none, fun _ => false⟩
      = (⟨"n", "", 5, .rtype TInt, VNil⟩, some (VErrRequired "n")) :=
  ((c4_acquire_mode_gating ⟨"n", "", 5, .rtype TInt, VNil⟩
      ⟨fun _ => none, fun _ => false⟩).1 (by decide) rfl).1 (by decide)

/-- C5: for a `Write`-mode key whose name the environment already has bound
(bound as the environment interface reports it: `Has`), `Apply` leaves the
environment unchanged while `Clobber` replaces exactly that binding with the
key's current value; without `Write` mode both operations leave the
environment untouched. -/
theorem c5_apply_clobber (k : Key) (e : Executer) :
    (k.mode &&& Write ≠ 0 → e.Has k.name = true →
      k.Apply e = (e, none)
      ∧ (k.Clobber e).2 = none
      ∧ ((k.Clobber e).1).scope.get k.name = some k.val
      ∧ (∀ m, m ≠ k.name → ((k.Clobber e).1).scope.get m = e.scope.get m)
      ∧ ((k.Clobber e).1).funcs = e.funcs)
    ∧ (k.mode &&& Write = 0 → k.Apply e = (e, none) ∧ k.Clobber e = (e, none)) := by
  constructor
  · intro hw hb
    obtain ⟨hf, v, hv, -⟩ := (executerHas_iff e k.name).mp hb
    have happ : k.Apply e = (e, none) := by simp [Key.Apply, hw, hb]
    have hclob : k.Clobber e = ({ e with scope := e.scope.set k.name k.val }, none) := by
      simp [Key.Clobber, Executer.Set, hw, hf, Scope.get] at *
      simp [hv]
    refine ⟨happ, ?_, ?_, ?_, ?_⟩
    · rw [hclob]
    · rw [hclob]; simp [Scope.get, Scope.set]
    · intro m hm
      rw [hclob]; simp [Scope.get, Scope.set, hm]
    · rw [hclob]
  · intro hw
    exact ⟨by simp [Key.Apply, hw], by simp [Key.Clobber, hw]⟩

/-- C5 witness: a `Write` key named `n` holding 1, against an environment in
which `n` is bound to 2. -/
theorem c5_witness :
    (⟨"n", "", 2, .rtype TInt, VInt 1⟩ : Key).Apply
        ⟨fun m => if m = "n" then some (VInt 2) else none, fun _ => false⟩
      = (⟨fun m => if m = "n" then some (VInt 2) else none, fun _ => false⟩, none) :=
  ((c5_apply_clobber ⟨"n", "", 2, .rtype TInt, VInt 1⟩
      ⟨fun m => if m = "n" then some (VInt 2) else none, fun _ => false⟩).1
    (by decide) (by simp [Executer.Has, Scope.get])).1

/-- C6: `Set` of the nil value always succeeds and makes `Get` return the
absent value, regardless of the key's prior mode or value; and for a non-nil
value that `Check` rejects, `Set` returns exactly that error and leaves the
key (its stored value included) untouched. -/
theorem c6_set_nil_and_set_failure (k : Key) (v : GoVal) :
    ((k.Set VNil).2 = none ∧ ((k.Set VNil).1).Get = VNil)
    ∧ (v ≠ VNil → ∀ er, (Check k.name k.typer v).2 = some er →
        k.Set v = (k, some er)) := by
  constructor
  · exact ⟨by simp [Key.Set], by simp [Key.Set, Key.Get]⟩
  · intro hv er he
    unfold Key.Set
    rw [if_neg hv]
    rcases hc : Check k.name k.typer v with ⟨v', err⟩
    rw [hc] at he
    simp at he
    subst he
    simp

/-- C6 witness: the `Integer`-typed key, cleared by `Set nil`, and given the
string `"s"`, which its descriptor rejects. -/
theorem c6_witness :
    ((k6.Set VNil).2 = none ∧ ((k6.Set VNil).1).Get = VNil)
    ∧ k6.Set (VString "s") = (k6, some (VErrKeyType "n" none "integer")) := by
  have h := c6_set_nil_and_set_failure k6 (VString "s")
  exact ⟨h.1, h.2 (by decide) _ rfl⟩

/-- `Key.Set` preserves the stored-value invariant. -/
theorem keySet_preserves_inv (k : Key) (v : GoVal) (h : KeyInv k) :
    KeyInv (k.Set v).1 := by
  unfold Key.Set
  by_cases hv : v = VNil
  · rw [if_pos hv]
    left
    simp [hv]
  · rw [if_neg hv]
    rcases hc : Check k.name k.typer v with ⟨v', err⟩
    cases err with
    | none =>
      right
      exact check_idem k.name k.typer v v' hc
    | some e => exact h

/-- C7: every key reachable through the public constructors and operations
keeps its stored value either absent or accepted unchanged by its own
descriptor: the constructors establish `KeyInv` and `Set`, `Acquire` and
`SetMode` preserve it (`Apply`, `ApplyOrNil` and `Clobber` never change the
key, which the model makes explicit by returning only the environment). -/
theorem c7_key_invariant :
    (∀ n t d m ds k err, New n t d m ds = (some k, err) → KeyInv k)
    ∧ (∀ n d m ds k, NewAuto n d m ds = (some k, none) → KeyInv k)
    ∧ (∀ k v, KeyInv k → KeyInv (k.Set v).1)
    ∧ (∀ k e, KeyInv k → KeyInv (k.Acquire e).1)
    ∧ (∀ k m, KeyInv k → KeyInv (k.SetMode m)) := by
  refine ⟨?_, ?_, ?_, ?_, ?_⟩
  · intro n t d m ds k err h
    unfold New at h
    split at h
    · simp at h
    · simp only [Prod.mk.injEq, Option.some.injEq] at h
      obtain ⟨hk, -⟩ := h
      subst hk
      exact keySet_preserves_inv _ d (Or.inl rfl)
  · intro n d m ds k h
    unfold NewAuto at h
    split at h
    · simp at h
    · rcases ht : typeOf d with _ | t
      · rw [ht] at h; simp at h
      · rw [ht] at h
        simp only [Prod.mk.injEq, Option.some.injEq] at h
        obtain ⟨hk, -⟩ := h
        subst hk
        right
        simp [Check, typeOf_not_ifaceKind d t ht, ht]
  · intro k v h
    exact keySet_preserves_inv k v h
  · intro k e h
    unfold Key.Acquire
    split_ifs <;>
      first
        | exact h
        | (rcases hge : e.Get k.name with ⟨v, er⟩
           exact keySet_preserves_inv k v h)
  · intro k m h
    exact h.imp (fun h1 => h1) (fun h1 => h1)

/-- C7 witness: setting `int32(5)` on the `Integer`-typed key (whose stored
default 3 satisfies the invariant) keeps the invariant. -/
theorem c7_witness : KeyInv ((k6.Set (VInt32 5)).1) :=
  c7_key_invariant.2.2.1 k6 (VInt32 5) (Or.inr rfl)

/-- C8: invoking a wrapped fixed-arity function with an argument count other
than the declared arity stops before the host call (`funcStandardStep`
answers with the error, never reaching the `called` phase, for any host
behaviour) and returns the parameter-count error, whose message names the
function's canonical `Format` signature. -/
theorem c8_param_count_mismatch (name : String) (f : HostFn) (args : List GoVal)
    (ret : List GoVal → GoVal × GoVal)
    (hv : f.sig.variadic = false) (hr : funcReturn name f.sig = some ret)
    (hn : args.length ≠ f.sig.inTypes.length) :
    funcStandardStep name f.sig args = some (.errored (newParamError name f.sig))
    ∧ Func name f args = some (VNil, newParamError name f.sig)
    ∧ newParamError name f.sig
      = VErrSimple ("Incorrect number of parameters to function " ++ name ++ ".\n\n\t"
          ++ Format name (.func f.sig) ++ ".") := by
  have hstep : funcStandardStep name f.sig args
      = some (.errored (newParamError name f.sig)) := by
    simp [funcStandardStep, hn]
  refine ⟨hstep, ?_, rfl⟩
  simp [Func, hv, funcStandard, hr, hstep]

/-- C8 witness: the one-parameter function `c8fn` invoked on the empty
argument list. -/
theorem c8_witness :
    Func "g" c8fn [] = some (VNil, newParamError "g" c8fn.sig) :=
  (c8_param_count_mismatch "g" c8fn [] (fun vo => (vo.getD 0 VNil, VNil))
    rfl rfl (by decide)).2.1

/-- C9: `Format` (a function of its inputs, hence deterministic) renders a
fixed two-parameter function of (string, any-sequence) returning only an
error as `"name :: string -> []\x7b\x7d => ()"`, and a function with no
parameters and no return values as `"name :: ()"` — with zero parameters the
`" => "` separator disappears. -/
theorem c9_format_signatures (name : String) :
    Format name (.func ⟨[TString, TSlice TIface], false, [TError]⟩)
      = name ++ " :: string -> []\x7b\x7d => ()"
    ∧ Format name (.func ⟨[], false, []⟩) = name ++ " :: ()" := by
  constructor
  · show name ++ " :: " ++ ("string -> " ++ ("[]\x7b\x7d" ++ " => ")) ++ "()"
      = name ++ " :: string -> []\x7b\x7d => ()"
    simp [String.append_assoc]
  · show name ++ " :: " ++ "" ++ "()" = name ++ " :: ()"
    simp [String.append_assoc]

/-- C9 witness: the two renderings at the concrete name `a`. -/
theorem c9_witness :
    Format "a" (.func ⟨[TString, TSlice TIface], false, [TError]⟩)
      = "a" ++ " :: string -> []\x7b\x7d => ()"
    ∧ Format "a" (.func ⟨[], false, []⟩) = "a" ++ " :: ()" :=
  c9_format_signatures "a"

/-- C10: `Has` answers true exactly for names that are not registered
functions, look up successfully in the scope, and are bound to a non-nil
value; hence a name `ApplyOrNil` has just bound to nil (which it does for
every non-`Write` key) is reported absent, a later `Apply` of a `Write`-mode
key writes over the nil binding, and `Acquire` of a `Read|Required` key whose
name is bound to nil fails with `RequiredError` as if the name were
unbound. -/
theorem c10_has_nil_bindings (e : Executer) (n : String) (k : Key) :
    (e.Has n = true ↔ e.funcs n = false ∧ ∃ v, e.scope.get n = some v ∧ v ≠ VNil)
    ∧ (k.mode &&& Write = 0 → e.funcs k.name = false →
        (k.ApplyOrNil e).2 = none
        ∧ ((k.ApplyOrNil e).1).scope.get k.name = some VNil
        ∧ ((k.ApplyOrNil e).1).Has k.name = false)
    ∧ (e.scope.get k.name = some VNil → e.funcs k.name = false →
        k.mode &&& Write ≠ 0 →
        (k.Apply e).2 = none ∧ ((k.Apply e).1).scope.get k.name = some k.val)
    ∧ (e.scope.get k.name = some VNil → k.mode &&& Read ≠ 0 →
        k.mode &&& Required ≠ 0 →
        k.Acquire e = (k, some (VErrRequired k.name))) := by
  have hasnil : ∀ e' : Executer, e'.scope.get k.name = some VNil →
      e'.Has k.name = false := by
    intro e' hg
    unfold Executer.Has
    split_ifs
    · rfl
    · simp [hg]
  refine ⟨executerHas_iff e n, ?_, ?_, ?_⟩
  · intro hw hf
    have h1 : k.ApplyOrNil e = ((e.Set k.name VNil).1, (e.Set k.name VNil).2) := by
      simp [Key.ApplyOrNil, hw]
    have h2 : (e.Set k.name VNil).2 = none
        ∧ ((e.Set k.name VNil).1).scope.get k.name = some VNil
        ∧ ((e.Set k.name VNil).1).funcs = e.funcs := by
      unfold Executer.Set
      rw [if_neg (by simp [hf])]
      rcases hg : e.scope.get k.name with _ | v
      · unfold Scope.create
        rw [if_neg (by simp [Scope.get] at hg ⊢; exact hg)]
        exact ⟨rfl, by simp [Scope.get, Scope.set], rfl⟩
      · exact ⟨rfl, by simp [Scope.get, Scope.set], rfl⟩
    refine ⟨by rw [h1]; exact h2.1, by rw [h1]; exact h2.2.1, ?_⟩
    rw [h1]
    exact hasnil _ h2.2.1
  · intro hg hf hw
    have hhas := hasnil e hg
    have h1 : k.Apply e = ((e.Set k.name k.val).1, (e.Set k.name k.val).2) := by
      simp [Key.Apply, hw, hhas]
    have h2 : (e.Set k.name k.val).2 = none
        ∧ ((e.Set k.name k.val).1).scope.get k.name = some k.val := by
      unfold Executer.Set
      rw [if_neg (by simp [hf])]
      rw [hg]
      exact ⟨rfl, by simp [Scope.get, Scope.set]⟩
    exact ⟨by rw [h1]; exact h2.1, by rw [h1]; exact h2.2⟩
  · intro hg hr hq
    simp [Key.Acquire, hr, hq, hasnil e hg]

/-- C10 witness: the `Write` key `k10` applied over the environment `e10`
whose scope binds its name to nil: the nil binding is written over. -/
theorem c10_witness :
    (k10.Apply e10).2 = none ∧ ((k10.Apply e10).1).scope.get "n" = some (VInt 7) :=
  (c10_has_nil_bindings e10 "n" k10).2.2.1 rfl rfl (by decide)
